import Mathlib

/-!
# Verification of the demo-lang pipeline (lexer, parser fragment, compiler, VM)

Shallow embedding of the Rust sources of `demo-lang`:
  * `src/ast.rs`       — AST data model (`Program`, `Statement`, `Expression`, ...)
  * `src/run.rs`       — bytecode data model (`CompiledFunction`, `Inst`, `Value`, ...)
  * `src/compiler.rs`  — `Compiler::compile_statement` / `compile_expression`
  * `src/runtime.rs`   — `Runtime::run_function`, `Env::get/set/...`, builtins glue
  * `src/builtins.rs`  — `register_builtins`
  * `src/tokenizer.rs` — `Tokenizer::next`, `read_number`, `read_exponent`,
                         `read_string`, comment/space skipping
  * `src/parser.rs`    — the integer-literal arm of `parse_expression_base`

Modelling conventions:
  * Rust `HashMap` is modelled as an association list; `insert` is modelled by
    consing the new pair in front, which is observationally equivalent for the
    only operation the code performs on the maps after insertion (keyed lookup).
  * Rust `Vec` used as an operand stack is modelled as a `List` whose head is
    the top of the stack (the end of the `Vec`); `Vec::pop` is taking the head.
  * Rust `Vec` used as an ordered vector (argument vectors, property vectors)
    is modelled as a `List` in the same element order as the `Vec`.
  * `i32` is modelled as `Int` (no claim exercises wrap-around arithmetic) and
    `f32` payloads are modelled as `Rat` (no claim observes rounding).
  * A Rust panic (`unwrap` of `None`) is the `panic` outcome; host recursion is
    bounded by an explicit fuel parameter, `fuelOut` marking exhaustion.
  * The byte source (`src/source.rs`) is modelled as the list of remaining
    bytes; `SourceReader::current` of an exhausted source is the sentinel `0`,
    matching `fill_lookahead` padding with zeros at end of input.
-/

namespace DemoLang

/-- Keyed lookup in an association list, first match wins.  Models
`HashMap::get` for maps built with `insertKey` below. -/
def lookupKey {κ β : Type} [DecidableEq κ] : List (κ × β) → κ → Option β
| [], _ => none
| (k, v) :: rest, k' => if k = k' then some v else lookupKey rest k'

/-- Models `HashMap::insert`: the new binding shadows any previous binding of
the same key for every later `lookupKey`. -/
def insertKey {κ β : Type} [DecidableEq κ] (m : List (κ × β)) (k : κ) (v : β) :
    List (κ × β) :=
  (k, v) :: m

/-! ## AST (`src/ast.rs`) -/

/-- Embeds `ast.rs` `TypeDefVariant { name, properties }`. -/
structure TypeDefVariant where
  name : String
  properties : List String
deriving DecidableEq, Repr

/-- Embeds `ast.rs` `TypeDef { name, variants }`. -/
structure TypeDef where
  name : String
  variants : List TypeDefVariant
deriving DecidableEq, Repr

/-- Embeds `ast.rs` `Operator`. -/
inductive Operator
| biteAnd | biteOr | plus | minus | times | div | rem
| less | greater | lessEquals | greaterEquals
| and | or | xor | equals | notEquals
deriving DecidableEq, Repr

/-- Embeds `ast.rs` `UnaryOperator`. -/
inductive UnaryOperator
| plus | minus | not
deriving DecidableEq, Repr

mutual

/-- Embeds `ast.rs` `Statement` (`Variable` is `varDecl` here, the Rust name is a
Lean keyword).  `Variable { name, value }` is inlined into the constructor. -/
inductive Statement
| varDecl (name : String) (value : Expression)
| expr (e : Expression)
| typeDef (td : TypeDef)

/-- Embeds `ast.rs` `Expression`. -/
inductive Expression
| int (value : Int)
| float (value : Rat)
| string (value : String)
| funCall (name : String) (args : List Expression)
| operator (op : Operator) (left right : Expression)
| unaryOperator (op : UnaryOperator) (e : Expression)
| list (items : List Expression)
| tuple (values : List Expression)
| lambda (args : List String) (code : List Statement)
| ret (value : Expression)

end

/-- Embeds `ast.rs` `Program { statements }`. -/
structure Program where
  statements : List Statement

/-! ## Bytecode and runtime values (`src/run.rs`) -/

/-- Embeds `run.rs` `Inst`. -/
inductive Inst
| set (name : String)
| int (value : Int)
| float (value : Rat)
| string (value : String)
| call (name : String)
| list (items : Nat)
| tuple (items : Nat)
| function (func : Nat)
| ret
deriving DecidableEq, Repr

/-- Embeds `run.rs` `InstanceClass { id, typedef, variant, properties }` (the
`Rc<TypeDef>` is modelled by value, sharing is unobservable). -/
structure InstanceClass where
  id : Nat
  typedef : TypeDef
  variant : String
  properties : List String
deriving DecidableEq, Repr

/-- Embeds `run.rs` `CompiledFunction { args, code, functions, instance_classes }`. -/
structure CompiledFunction where
  args : Nat
  code : List Inst
  functions : List (Nat × CompiledFunction)
  instanceClasses : List (String × InstanceClass)

/-- Embeds `run.rs` `CompiledProgram { root_function }`. -/
structure CompiledProgram where
  rootFunction : CompiledFunction

/-- Embeds `run.rs` `Value` (`Instance { class, properties }` inlined into the
constructor). -/
inductive Value
| unit
| int (n : Int)
| float (q : Rat)
| string (s : String)
| list (vs : List Value)
| tuple (vs : List Value)
| function (func : Nat)
| instance (cls : Nat) (properties : List Value)

/-- Embeds `runtime.rs` `RuntimeError`. -/
inductive RuntimeError
| stackUnderflow
| undefinedName (name : String)
| custom (msg : String)
deriving DecidableEq, Repr

/-- Outcome of running embedded Rust code: a value, a returned
`RuntimeError`, a Rust panic, or exhaustion of the modelling fuel. -/
inductive RunRes (α : Type)
| ok (a : α)
| err (e : RuntimeError)
| panic
| fuelOut

/-! ## Runtime environment (`src/runtime.rs`) -/

/-- Embeds `runtime.rs` `StackFrame { variables, functions, instance_classes,
id_to_class }`. -/
structure StackFrame where
  vars : List (String × Value)
  functions : List (Nat × CompiledFunction)
  instanceClasses : List (String × InstanceClass)
  idToClass : List (Nat × InstanceClass)

/-- Embeds `runtime.rs` `Env { frames }`.  The head of the list is the *topmost*
(most recently pushed) frame, i.e. the end of the Rust `Vec<StackFrame>`. -/
abbrev Env : Type := List StackFrame

/-- Embeds `runtime.rs` `BuiltinFunction { args, func }`.  The `&mut Runtime`
parameter of the Rust function pointer is dropped: no registered builtin in
this repository reads or writes the runtime. -/
structure BuiltinFunction where
  args : Nat
  func : List Value → RunRes Value

/-- Embeds `runtime.rs` `Runtime { builtin_functions, builtin_instance_classes,
builtin_id_to_class, next_id }`. -/
structure Runtime where
  builtinFunctions : List (String × BuiltinFunction)
  builtinInstanceClasses : List (String × InstanceClass)
  builtinIdToClass : List (Nat × InstanceClass)
  nextId : Nat

/-- Embeds `Runtime::new()`: empty registries, `next_id` starting at `100_000`. -/
def Runtime.new : Runtime :=
  { builtinFunctions := []
    builtinInstanceClasses := []
    builtinIdToClass := []
    nextId := 100000 }

/-- Embeds `Runtime::register_func`: inserts (or overwrites) a named builtin. -/
def Runtime.registerFunc (rt : Runtime) (name : String) (args : Nat)
    (func : List Value → RunRes Value) : Runtime :=
  { rt with builtinFunctions :=
      insertKey rt.builtinFunctions name { args := args, func := func } }

/-- One iteration of the loop body of `Runtime::register_type`. -/
def Runtime.registerVariant (rt : Runtime) (def_ : TypeDef)
    (variant : TypeDefVariant) : Runtime :=
  let class_ : InstanceClass :=
    { id := rt.nextId
      typedef := def_
      variant := variant.name
      properties := variant.properties }
  { rt with
      nextId := rt.nextId + 1
      builtinIdToClass := insertKey rt.builtinIdToClass class_.id class_
      builtinInstanceClasses :=
        insertKey rt.builtinInstanceClasses variant.name class_ }

/-- Embeds `Runtime::register_type`: one builtin class per variant, ids drawn from
the runtime's own counter (starting at `100_000`). -/
def Runtime.registerType (rt : Runtime) (def_ : TypeDef) : Runtime :=
  def_.variants.foldl (fun r v => r.registerVariant def_ v) rt

/-- Embeds `Env::get`: scan the frames from the topmost (head) to the bottommost,
first variable binding named `name` wins. -/
def envGet : Env → String → Option Value
| [], _ => none
| f :: fs, name =>
  match lookupKey f.vars name with
  | some v => some v
  | none => envGet fs name

/-- Embeds `Env::set`: insert the binding into the topmost frame only; a no-op on an
empty frame stack (`if let Some(frame) = ...`). -/
def envSet : Env → String → Value → Env
| [], _, _ => []
| f :: fs, name, v => { f with vars := insertKey f.vars name v } :: fs

/-- Embeds `Env::get_instance_class`: scan the frames from the topmost to the
bottommost, first locally-declared type constructor named `name` wins. -/
def envGetInstanceClass : Env → String → Option InstanceClass
| [], _ => none
| f :: fs, name =>
  match lookupKey f.instanceClasses name with
  | some c => some c
  | none => envGetInstanceClass fs name

/-- Embeds `Env::get_function`: scan the frames from the topmost to the bottommost
for a nested-lambda table entry with the given id. -/
def envGetFunction : Env → Nat → Option CompiledFunction
| [], _ => none
| f :: fs, id =>
  match lookupKey f.functions id with
  | some fn => some fn
  | none => envGetFunction fs id

/-- Embeds `Env::push`: push a fresh frame exposing the invoked function's own
nested-lambda table and nested type-constructor tables (the latter re-keyed
by `class.variant`, as the Rust loop over `func.instance_classes.values()`
does). -/
def envPush (env : Env) (func : CompiledFunction) : Env :=
  { vars := []
    functions := func.functions
    instanceClasses := func.instanceClasses.map fun p => (p.2.variant, p.2)
    idToClass := func.instanceClasses.map fun p => (p.2.id, p.2) } :: env

/-- Embeds `Env::pop` (`frames.pop().unwrap()`); every use in `run_function` pops a
frame pushed by the matching `Env::push`, so the stack is never empty there
and the `unwrap` never fires. -/
def envPop (env : Env) : Env := env.tail

/-- Pop `n` values off an operand stack, in pop order (first element of the
result vector = old top of stack).  `none` models the `StackUnderflow` error
path of the gather loops in `run_function`. -/
def popN (n : Nat) (stack : List Value) : Option (List Value × List Value) :=
  if n ≤ stack.length then some (stack.take n, stack.drop n) else none

/-- Embeds `Runtime::run_function`: execute the instruction list `code` of a
`CompiledFunction` with operand stack `stack` (head = top).  The initial
stack of an invocation is the reversal of its argument vector (`let mut stack
= args`).  `fuel` bounds the number of executed instructions; every branch
that the Rust loop takes is mirrored, including the `unwrap` panic on a
failed function-id lookup. -/
def runCode (rt : Runtime) :
    Nat → Env → List Inst → List Value → RunRes (Env × Value)
| 0, _, _, _ => .fuelOut
| _ + 1, env, [], stack => .ok (env, stack.headD .unit)
| fuel + 1, env, inst :: rest, stack =>
  match inst with
  | .set name =>
    match stack with
    | [] => .err .stackUnderflow
    | v :: s => runCode rt fuel (envSet env name v) rest s
  | .int value => runCode rt fuel env rest (.int value :: stack)
  | .float value => runCode rt fuel env rest (.float value :: stack)
  | .string value => runCode rt fuel env rest (.string value :: stack)
  | .call name =>
    match envGet env name with
    | some value =>
      match value with
      | .function fid =>
        match envGetFunction env fid with
        | none => .panic
        | some func =>
          match popN func.args stack with
          | none => .err .stackUnderflow
          | some (args, s) =>
            match runCode rt fuel (envPush env func) func.code args.reverse with
            | .ok (env₂, result) =>
              runCode rt fuel (envPop env₂) rest (result :: s)
            | .err e => .err e
            | .panic => .panic
            | .fuelOut => .fuelOut
      | v => runCode rt fuel env rest (v :: stack)
    | none =>
      match envGetInstanceClass env name with
      | some instanceClass =>
        match popN instanceClass.properties.length stack with
        | none => .err .stackUnderflow
        | some (properties, s) =>
          runCode rt fuel env rest (.instance instanceClass.id properties :: s)
      | none =>
        match lookupKey rt.builtinFunctions name with
        | some func =>
          match popN func.args stack with
          | none => .err .stackUnderflow
          | some (args, s) =>
            match func.func args with
            | .ok result => runCode rt fuel env rest (result :: s)
            | .err e => .err e
            | .panic => .panic
            | .fuelOut => .fuelOut
        | none =>
          match lookupKey rt.builtinInstanceClasses name with
          | some instanceClass =>
            match popN instanceClass.properties.length stack with
            | none => .err .stackUnderflow
            | some (properties, s) =>
              runCode rt fuel env rest
                (.instance instanceClass.id properties :: s)
          | none => .err (.undefinedName name)
  | .list items =>
    match popN items stack with
    | none => .err .stackUnderflow
    | some (values, s) => runCode rt fuel env rest (.list values :: s)
  | .tuple items =>
    match popN items stack with
    | none => .err .stackUnderflow
    | some (values, s) => runCode rt fuel env rest (.tuple values :: s)
  | .function func => runCode rt fuel env rest (.function func :: stack)
  | .ret =>
    match stack with
    | [] => .err .stackUnderflow
    | v :: _ => .ok (env, v)

/-- Embeds `Runtime::run`: push the root frame, run the root function with an empty
argument vector, pop, and return the value. -/
def runProgram (rt : Runtime) (fuel : Nat) (cp : CompiledProgram) :
    RunRes Value :=
  match runCode rt fuel (envPush [] cp.rootFunction) cp.rootFunction.code [] with
  | .ok (_, v) => .ok v
  | .err e => .err e
  | .panic => .panic
  | .fuelOut => .fuelOut

/-! ## Registered builtins (`src/builtins.rs`) -/

/-- The `print` builtin: `args.into_iter().next().unwrap()` (panic on an
empty vector), print (side effect dropped), return the argument. -/
def printBuiltin : List Value → RunRes Value
| [] => .panic
| v :: _ => .ok v

/-- The `unary_minus` builtin (the `format!` payload of the error message is
abbreviated; no claim observes the message text). -/
def unaryMinusBuiltin : List Value → RunRes Value
| [] => .panic
| v :: _ =>
  match v with
  | .int value => .ok (.int (-value))
  | .float value => .ok (.float (-value))
  | _ => .err (.custom "Unable to negate non numeric value")

/-- The `unary_plus` builtin. -/
def unaryPlusBuiltin : List Value → RunRes Value
| [] => .panic
| v :: _ =>
  match v with
  | .int value => .ok (.int value)
  | .float value => .ok (.float value)
  | _ => .err (.custom "Unable to use unary plus on non numeric value")

/-- Embeds `builtins.rs` `register_builtins`: `print`, `unary_minus`, `unary_plus`,
and the builtin `Boolean` type with variants `True` and `False`. -/
def registerBuiltins (rt : Runtime) : Runtime :=
  (((rt.registerFunc "print" 1 printBuiltin).registerFunc
      "unary_minus" 1 unaryMinusBuiltin).registerFunc
      "unary_plus" 1 unaryPlusBuiltin).registerType
    { name := "Boolean"
      variants :=
        [ { name := "True", properties := [] }
          , { name := "False", properties := [] } ] }

/-- The runtime as `main.rs` sets it up: `Runtime::new()` followed by
`register_builtins`. -/
def initialRuntime : Runtime := registerBuiltins Runtime.new

/-! ## Compiler (`src/compiler.rs`)

The Rust compiler threads a mutable `next_id` counter and mutates the target
`CompiledFunction` in place; here both are passed and returned explicitly.
`CompileError` has no constructable values, so the `Result` wrapper of the
Rust signatures is dropped. -/

/-- The reserved call name a binary `Operator` is lowered to
(`compile_expression`, `Expression::Operator` arm). -/
def opName : Operator → String
| .biteAnd => "&"
| .biteOr => "|"
| .plus => "+"
| .minus => "-"
| .times => "*"
| .div => "/"
| .rem => "%"
| .less => "<"
| .greater => ">"
| .lessEquals => "<="
| .greaterEquals => ">="
| .and => "&&"
| .or => "||"
| .xor => "^"
| .equals => "=="
| .notEquals => "!="

/-- The reserved call name a `UnaryOperator` is lowered to. -/
def unaryOpName : UnaryOperator → String
| .plus => "unary_plus"
| .minus => "unary_minus"
| .not => "unary_not"

/-- The `Statement::TypeDef` arm of `compile_statement`: one `InstanceClass`
per variant, ids drawn from the compiler's counter, keyed by variant name in
the current function's nested type table. -/
def compileTypeDef (td : TypeDef) : List TypeDefVariant → CompiledFunction →
    Nat → CompiledFunction × Nat
| [], node, nid => (node, nid)
| variant :: rest, node, nid =>
  let class_ : InstanceClass :=
    { id := nid
      typedef := td
      variant := variant.name
      properties := variant.properties }
  compileTypeDef td rest
    { node with instanceClasses :=
        insertKey node.instanceClasses variant.name class_ }
    (nid + 1)

mutual

/-- Embeds `Compiler::compile_statement`. -/
def compileStatement : Statement → CompiledFunction → Nat →
    CompiledFunction × Nat
| .varDecl name value, node, nid =>
  let (node₁, nid₁) := compileExpression value node nid
  ({ node₁ with code := node₁.code ++ [.set name] }, nid₁)
| .expr e, node, nid => compileExpression e node nid
| .typeDef td, node, nid => compileTypeDef td td.variants node nid

/-- The `for stm in code` loops of `compile` and of the `Lambda` arm. -/
def compileStatements : List Statement → CompiledFunction → Nat →
    CompiledFunction × Nat
| [], node, nid => (node, nid)
| stm :: rest, node, nid =>
  let (node₁, nid₁) := compileStatement stm node nid
  compileStatements rest node₁ nid₁

/-- Embeds `Compiler::compile_expression`. -/
def compileExpression : Expression → CompiledFunction → Nat →
    CompiledFunction × Nat
| .unaryOperator op e, node, nid =>
  let (node₁, nid₁) := compileExpression e node nid
  ({ node₁ with code := node₁.code ++ [.call (unaryOpName op)] }, nid₁)
| .int value, node, nid =>
  ({ node with code := node.code ++ [.int value] }, nid)
| .float value, node, nid =>
  ({ node with code := node.code ++ [.float value] }, nid)
| .string value, node, nid =>
  ({ node with code := node.code ++ [.string value] }, nid)
| .funCall name args, node, nid =>
  let (node₁, nid₁) := compileExpressions args node nid
  ({ node₁ with code := node₁.code ++ [.call name] }, nid₁)
| .operator op left right, node, nid =>
  let (node₁, nid₁) := compileExpression left node nid
  let (node₂, nid₂) := compileExpression right node₁ nid₁
  ({ node₂ with code := node₂.code ++ [.call (opName op)] }, nid₂)
| .list items, node, nid =>
  let (node₁, nid₁) := compileExpressions items node nid
  ({ node₁ with code := node₁.code ++ [.list items.length] }, nid₁)
| .tuple values, node, nid =>
  let (node₁, nid₁) := compileExpressions values node nid
  ({ node₁ with code := node₁.code ++ [.tuple values.length] }, nid₁)
| .lambda args code, node, nid =>
  let lambda₀ : CompiledFunction :=
    { args := args.length
      code := args.reverse.map Inst.set
      functions := []
      instanceClasses := [] }
  let (lambda₁, nid₁) := compileStatements code lambda₀ nid
  ({ node with
      functions := insertKey node.functions nid₁ lambda₁
      code := node.code ++ [.function nid₁] }, nid₁ + 1)
| .ret value, node, nid =>
  let (node₁, nid₁) := compileExpression value node nid
  ({ node₁ with code := node₁.code ++ [.ret] }, nid₁)

/-- The `for expr in args/items/values` loops of `compile_expression`. -/
def compileExpressions : List Expression → CompiledFunction → Nat →
    CompiledFunction × Nat
| [], node, nid => (node, nid)
| e :: rest, node, nid =>
  let (node₁, nid₁) := compileExpression e node nid
  compileExpressions rest node₁ nid₁

end

/-- Embeds `Compiler::compile` with `Compiler::new()`'s counter (`next_id = 0`). -/
def compileProgram (program : Program) : CompiledProgram :=
  let root₀ : CompiledFunction :=
    { args := 0, code := [], functions := [], instanceClasses := [] }
  { rootFunction := (compileStatements program.statements root₀ 0).1 }

/-! ## Tokenizer (`src/tokenizer.rs`)

The reader state is the list of remaining input bytes; `SourceReader`'s
`current`/`next`/`next_next` read the 3-byte lookahead, which is padded with
the sentinel byte `0` once the input is exhausted, and `shift` past the end
of input is a no-op on the (empty) remaining input. -/

/-- Embeds `SourceReader::current`. -/
def current (r : List Nat) : Nat := r.headD 0

/-- Embeds `SourceReader::next`. -/
def next1 (r : List Nat) : Nat := (r.drop 1).headD 0

/-- Embeds `SourceReader::next_next`. -/
def next2 (r : List Nat) : Nat := (r.drop 2).headD 0

/-- Embeds `tokenizer.rs` `Token`.  Keyword constructors are prefixed with `kw`
(most Rust names are Lean keywords); the C keyword `extern` becomes
`kwExternTok`.  The `Span` payload of `Error` is omitted: no claim observes
source positions. -/
inductive Token
| identifier (s : String)
| floatingLiteral (s : String)
| integerLiteral (s : String)
| stringLiteral (s : String)
| kwAuto | kwBreak | kwCase | kwChar | kwConst | kwContinue | kwDefault
| kwDo | kwDouble | kwElse | kwEnum | kwExternTok | kwFloat | kwFor | kwGoto
| kwIf | kwInt | kwLong | kwRegister | kwReturn | kwShort | kwSigned
| kwSizeof | kwStatic | kwStruct | kwSwitch | kwTypedef | kwUnion
| kwUnsigned | kwVoid | kwVolatile | kwWhile
| leftParen | rightParen | leftBrace | rightBrace | leftBracket | rightBracket
| less | lessEquals | greater | greaterEquals
| leftAssign | rightAssign | leftShift | rightShift
| ellipsis | tilde | questionMark | semicolon | equals | assign | colon | comma
| notEquals | not | atSign | hash | dollar | percent | xor | ampersand
| and | or | times | div | minus | minusMinus | plus | plusPlus | pointer
| pipe | percentAssign | xorAssign | andAssign | divAssign | timesAssign
| minusAssign | plusAssign | orAssign | dot
| eof
| error (c : Nat)
deriving Repr

/-- Embeds `u8::is_ascii_whitespace` (space, tab, newline, form feed, carriage
return). -/
def isWhitespaceByte (b : Nat) : Prop :=
  b = 32 ∨ b = 9 ∨ b = 10 ∨ b = 12 ∨ b = 13

instance (b : Nat) : Decidable (isWhitespaceByte b) := by
  unfold isWhitespaceByte; infer_instance

/-- ASCII decimal digit. -/
def isDigitByte (b : Nat) : Prop := 48 ≤ b ∧ b ≤ 57

instance (b : Nat) : Decidable (isDigitByte b) := by
  unfold isDigitByte; infer_instance

/-- Embeds `[A-Za-z_]`, the identifier byte set of `read_identifier` (and the
identifier dispatch range of `next`). -/
def isIdentByte (b : Nat) : Prop :=
  (97 ≤ b ∧ b ≤ 122) ∨ (65 ≤ b ∧ b ≤ 90) ∨ b = 95

instance (b : Nat) : Decidable (isIdentByte b) := by
  unfold isIdentByte; infer_instance

/-- Hex digit byte set of the hex loop in `read_number`. -/
def isHexDigitByte (b : Nat) : Prop :=
  (48 ≤ b ∧ b ≤ 57) ∨ (97 ≤ b ∧ b ≤ 102) ∨ (65 ≤ b ∧ b ≤ 70)

instance (b : Nat) : Decidable (isHexDigitByte b) := by
  unfold isHexDigitByte; infer_instance

/-- Embeds `char::to_ascii_uppercase` on a byte. -/
def toUpperByte (b : Nat) : Nat := if 97 ≤ b ∧ b ≤ 122 then b - 32 else b

/-- Embeds `Tokenizer::trim_spaces`. -/
def trimSpaces : List Nat → List Nat
| [] => []
| b :: r => if isWhitespaceByte b then trimSpaces r else b :: r

/-- The `while current != '\n' && current != 0` loop of the line-comment arm
of `trim_comments`. -/
def skipLine : List Nat → List Nat
| [] => []
| b :: r => if b = 10 ∨ b = 0 then b :: r else skipLine r

/-- The block-comment loop of `trim_comments` (stops at `*/` — consuming
both bytes — or at end of input). -/
def skipBlock : List Nat → List Nat
| [] => []
| b :: r =>
  if b = 0 then b :: r
  else if b = 42 ∧ current r = 47 then r.tail
  else skipBlock r

theorem trimSpaces_length_le (r : List Nat) :
    (trimSpaces r).length ≤ r.length := by
  induction r with
  | nil => simp [trimSpaces]
  | cons b r ih =>
    simp only [trimSpaces]
    split
    · exact le_trans ih (Nat.le_succ _)
    · simp

theorem skipLine_length_le (r : List Nat) :
    (skipLine r).length ≤ r.length := by
  induction r with
  | nil => simp [skipLine]
  | cons b r ih =>
    simp only [skipLine]
    split
    · simp
    · exact le_trans ih (Nat.le_succ _)

theorem skipBlock_length_le (r : List Nat) :
    (skipBlock r).length ≤ r.length := by
  induction r with
  | nil => simp [skipBlock]
  | cons b r ih =>
    simp only [skipBlock]
    split
    · simp
    · split
      · calc r.tail.length ≤ r.length := by
              cases r <;> simp
          _ ≤ r.length + 1 := Nat.le_succ _
      · exact le_trans ih (Nat.le_succ _)

theorem length_ge_two_of_next1_ne_zero {r : List Nat} (h : next1 r ≠ 0) :
    2 ≤ r.length := by
  match r with
  | [] => simp [next1] at h
  | [b] => simp [next1] at h
  | a :: b :: t => simp

/-- One bounded unfolding of `Tokenizer::trim_comments`: strip a run of
`//...` and `/*...*/` comments (each followed by `trim_spaces`),
recursively.  The structural bound only serves Lean's termination checker:
each iteration consumes at least the two comment-opening bytes, so `fuel =
r.length` (as used by `trimComments`) can never run out before the Rust
loop's own exit condition fires. -/
def trimCommentsFuel : Nat → List Nat → List Nat
| 0, r => r
| fuel + 1, r =>
  if current r = 47 ∧ next1 r = 47 then
    trimCommentsFuel fuel (trimSpaces (skipLine (r.drop 2)))
  else if current r = 47 ∧ next1 r = 42 then
    trimCommentsFuel fuel (trimSpaces (skipBlock (r.drop 2)))
  else r

/-- Embeds `Tokenizer::trim_comments`. -/
def trimComments (r : List Nat) : List Nat := trimCommentsFuel r.length r

/-- Each `trim_comments` iteration consumes at least two bytes, so the
bound of `trimComments` is conservative: any fuel of at least `r.length`
computes the loop's true fixpoint. -/
theorem trimCommentsFuel_sufficient (fuel fuel' : Nat) (r : List Nat)
    (h : r.length ≤ fuel) (h' : r.length ≤ fuel') :
    trimCommentsFuel fuel r = trimCommentsFuel fuel' r := by
  induction fuel using Nat.strong_induction_on generalizing fuel' r with
  | _ fuel ih =>
    match fuel, fuel' with
    | 0, 0 => rfl
    | 0, _ + 1 =>
      have hr : r = [] := List.length_eq_zero.mp (Nat.le_zero.mp h)
      subst hr
      simp [trimCommentsFuel, current, next1]
    | _ + 1, 0 =>
      have hr : r = [] := List.length_eq_zero.mp (Nat.le_zero.mp h')
      subst hr
      simp [trimCommentsFuel, current, next1]
    | f + 1, f' + 1 =>
      simp only [trimCommentsFuel]
      split
      · rename_i hc
        have hr : 2 ≤ r.length := by
          apply length_ge_two_of_next1_ne_zero
          rw [hc.2]; omega
        have hlen : (trimSpaces (skipLine (r.drop 2))).length ≤ r.length - 2 := by
          calc (trimSpaces (skipLine (r.drop 2))).length
              ≤ (skipLine (r.drop 2)).length := trimSpaces_length_le _
            _ ≤ (r.drop 2).length := skipLine_length_le _
            _ = r.length - 2 := by simp
        exact ih f (by omega) _ _ (by omega) (by omega)
      · split
        · rename_i hc
          have hr : 2 ≤ r.length := by
            apply length_ge_two_of_next1_ne_zero
            rw [hc.2]; omega
          have hlen : (trimSpaces (skipBlock (r.drop 2))).length ≤ r.length - 2 := by
            calc (trimSpaces (skipBlock (r.drop 2))).length
                ≤ (skipBlock (r.drop 2)).length := trimSpaces_length_le _
              _ ≤ (r.drop 2).length := skipBlock_length_le _
              _ = r.length - 2 := by simp
          exact ih f (by omega) _ _ (by omega) (by omega)
        · rfl

/-- Embeds `Tokenizer::read_identifier`'s collection loop (the `u32` digit count the
Rust helper returns is ignored by every caller and omitted). -/
def readIdentifier : List Nat → String → String × List Nat
| [], id => (id, [])
| b :: r, id =>
  if isIdentByte b then readIdentifier r (id.push (Char.ofNat b))
  else (id, b :: r)

/-- Embeds `Tokenizer::identifier_to_token`: the fixed keyword table. -/
def identifierToToken (id : String) : Token :=
  if id = "auto" then .kwAuto
  else if id = "break" then .kwBreak
  else if id = "case" then .kwCase
  else if id = "char" then .kwChar
  else if id = "const" then .kwConst
  else if id = "continue" then .kwContinue
  else if id = "default" then .kwDefault
  else if id = "do" then .kwDo
  else if id = "double" then .kwDouble
  else if id = "else" then .kwElse
  else if id = "enum" then .kwEnum
  else if id = "extern" then .kwExternTok
  else if id = "float" then .kwFloat
  else if id = "for" then .kwFor
  else if id = "goto" then .kwGoto
  else if id = "if" then .kwIf
  else if id = "int" then .kwInt
  else if id = "long" then .kwLong
  else if id = "register" then .kwRegister
  else if id = "return" then .kwReturn
  else if id = "short" then .kwShort
  else if id = "signed" then .kwSigned
  else if id = "sizeof" then .kwSizeof
  else if id = "static" then .kwStatic
  else if id = "struct" then .kwStruct
  else if id = "switch" then .kwSwitch
  else if id = "typedef" then .kwTypedef
  else if id = "union" then .kwUnion
  else if id = "unsigned" then .kwUnsigned
  else if id = "void" then .kwVoid
  else if id = "volatile" then .kwVolatile
  else if id = "while" then .kwWhile
  else .identifier id

/-- Embeds `Tokenizer::read_digits` (the returned count is ignored by every caller
and omitted). -/
def readDigits : List Nat → String → String × List Nat
| [], id => (id, [])
| b :: r, id =>
  if isDigitByte b then readDigits r (id.push (Char.ofNat b))
  else (id, b :: r)

/-- The hex-digit collection loop of `read_number` (digits normalized to
uppercase). -/
def readHexDigits : List Nat → String → String × List Nat
| [], id => (id, [])
| b :: r, id =>
  if isHexDigitByte b then readHexDigits r (id.push (Char.ofNat (toUpperByte b)))
  else (id, b :: r)

/-- The `while let b'u' | b'U' | b'l' | b'L' = current` suffix loops of
`read_number` on integer literals. -/
def skipIntSuffixes : List Nat → List Nat
| [] => []
| b :: r =>
  if b = 117 ∨ b = 85 ∨ b = 108 ∨ b = 76 then skipIntSuffixes r else b :: r

/-- The single `if let b'f' | b'F' | b'l' | b'L' = current { shift }` suffix
consumption of `read_number` on floating literals. -/
def skipFloatSuffix (r : List Nat) : List Nat :=
  if current r = 102 ∨ current r = 70 ∨ current r = 108 ∨ current r = 76
  then r.tail else r

/-- Embeds `Tokenizer::read_exponent`. -/
def readExponent (id : String) (r : List Nat) : String × List Nat :=
  if current r ≠ 101 ∧ current r ≠ 69 then (id, r)
  else
    let id₁ := if id.back = '.' then id.push '0' else id
    let id₂ := id₁.push 'e'
    let r₁ := r.tail
    if current r₁ = 43 ∨ current r₁ = 45 then
      readDigits r₁.tail (id₂.push (Char.ofNat (current r₁)))
    else
      readDigits r₁ (id₂.push '+')

/-- Embeds `Tokenizer::read_number`. -/
def readNumber (r : List Nat) : Token × List Nat :=
  if current r = 48 then
    let r₁ := r.tail
    if isDigitByte (current r₁) then
      -- octal number or decimal starting at 0
      let (id, r₂) := readDigits r₁ "0"
      if current r₂ = 46 then
        let (id₂, r₃) := readDigits r₂.tail (id.push '.')
        let (id₃, r₄) := readExponent id₂ r₃
        (.floatingLiteral id₃, skipFloatSuffix r₄)
      else
        (.integerLiteral id, skipIntSuffixes r₂)
    else if current r₁ = 120 ∨ current r₁ = 88 then
      -- hex number
      let (id, r₂) := readHexDigits r₁.tail "0x"
      (.integerLiteral id, skipIntSuffixes r₂)
    else if current r₁ = 46 then
      -- decimal number
      let (id₂, r₃) := readDigits r₁.tail "0."
      let (id₃, r₄) := readExponent id₂ r₃
      (.floatingLiteral id₃, skipFloatSuffix r₄)
    else
      -- just zero
      (.integerLiteral "0", skipIntSuffixes r₁)
  else if current r = 46 then
    let (id₂, r₃) := readDigits r.tail "0."
    let (id₃, r₄) := readExponent id₂ r₃
    (.floatingLiteral id₃, skipFloatSuffix r₄)
  else
    let (id, r₂) := readDigits r ""
    if current r₂ = 46 then
      let (id₂, r₃) := readDigits r₂.tail (id.push '.')
      let (id₃, r₄) := readExponent id₂ r₃
      (.floatingLiteral id₃, skipFloatSuffix r₄)
    else if current r₂ = 101 ∨ current r₂ = 69 then
      let (id₃, r₄) := readExponent ((id.push '.').push '0') r₂
      (.floatingLiteral id₃, skipFloatSuffix r₄)
    else
      (.integerLiteral id, skipIntSuffixes r₂)

/-- The escape mapping of `read_string` (`\0`, `\n`, `\t`, `\r`; any other
escaped byte passes through). -/
def escapeByte (c : Nat) : Nat :=
  if c = 48 then 0
  else if c = 110 then 10
  else if c = 116 then 9
  else if c = 114 then 13
  else c

/-- The loop of `Tokenizer::read_string` after the opening quote was
consumed.  The Rust loop has no end-of-input check: at end of input it keeps
matching the sentinel byte `0` with the catch-all arm forever, so it is
modelled with explicit fuel; `none` means the loop is still running after
`fuel` iterations. -/
def readStringAux : Nat → List Nat → String → Option (Token × List Nat)
| 0, _, _ => none
| fuel + 1, r, content =>
  if current r = 34 then some (.stringLiteral content, r.tail)
  else if current r = 92 then
    let r₁ := r.tail
    readStringAux fuel r₁.tail (content.push (Char.ofNat (escapeByte (current r₁))))
  else
    readStringAux fuel r.tail (content.push (Char.ofNat (current r)))

/-- Embeds `Tokenizer::read_string`: consume the opening quote, then run the loop. -/
def readString (fuel : Nat) (r : List Nat) : Option (Token × List Nat) :=
  readStringAux fuel r.tail ""

/-- Embeds `Tokenizer::next` (spans dropped; no claim observes them).  `fuel` only
bounds the string-literal loop; every other branch is finite.  `none` means
the call has not returned after `fuel` iterations of that loop. -/
def nextToken (fuel : Nat) (r₀ : List Nat) : Option (Token × List Nat) :=
  let r := trimComments (trimSpaces r₀)
  let b := current r
  if isIdentByte b then
    let (id, r₁) := readIdentifier r ""
    some (identifierToToken id, r₁)
  else if isDigitByte b then some (readNumber r)
  else if b = 46 then
    if isDigitByte (next1 r) then some (readNumber r)
    else if next1 r = 46 ∧ next2 r = 46 then some (.ellipsis, r.drop 3)
    else some (.dot, r.drop 1)
  else if b = 34 then readString fuel r
  else if b = 40 then some (.leftParen, r.tail)
  else if b = 41 then some (.rightParen, r.tail)
  else if b = 123 then some (.leftBrace, r.tail)
  else if b = 125 then some (.rightBrace, r.tail)
  else if b = 91 then some (.leftBracket, r.tail)
  else if b = 93 then some (.rightBracket, r.tail)
  else if b = 126 then some (.tilde, r.tail)
  else if b = 63 then some (.questionMark, r.tail)
  else if b = 60 then
    if next1 r = 60 ∧ next2 r = 61 then some (.leftAssign, r.drop 3)
    else if next1 r = 60 then some (.leftShift, r.drop 2)
    else if next1 r = 61 then some (.lessEquals, r.drop 2)
    else some (.less, r.drop 1)
  else if b = 62 then
    if next1 r = 62 ∧ next2 r = 61 then some (.rightAssign, r.drop 3)
    else if next1 r = 62 then some (.rightShift, r.drop 2)
    else if next1 r = 61 then some (.greaterEquals, r.drop 2)
    else some (.greater, r.drop 1)
  else if b = 59 then some (.semicolon, r.tail)
  else if b = 58 then some (.colon, r.tail)
  else if b = 44 then some (.comma, r.tail)
  else if b = 61 then
    if next1 r = 61 then some (.equals, r.drop 2) else some (.assign, r.drop 1)
  else if b = 33 then
    if next1 r = 61 then some (.notEquals, r.drop 2) else some (.not, r.drop 1)
  else if b = 64 then some (.atSign, r.tail)
  else if b = 35 then some (.hash, r.tail)
  else if b = 36 then some (.dollar, r.tail)
  else if b = 37 then
    if next1 r = 61 then some (.percentAssign, r.drop 2)
    else some (.percent, r.drop 1)
  else if b = 94 then
    if next1 r = 61 then some (.xorAssign, r.drop 2) else some (.xor, r.drop 1)
  else if b = 38 then
    if next1 r = 61 then some (.andAssign, r.drop 2)
    else if next1 r = 38 then some (.and, r.drop 2)
    else some (.ampersand, r.drop 1)
  else if b = 124 then
    if next1 r = 61 then some (.orAssign, r.drop 2)
    else if next1 r = 124 then some (.or, r.drop 2)
    else some (.pipe, r.drop 1)
  else if b = 42 then
    if next1 r = 61 then some (.timesAssign, r.drop 2)
    else some (.times, r.drop 1)
  else if b = 47 then
    if next1 r = 61 then some (.divAssign, r.drop 2) else some (.div, r.drop 1)
  else if b = 45 then
    if next1 r = 61 then some (.minusAssign, r.drop 2)
    else if next1 r = 45 then some (.minusMinus, r.drop 2)
    else if next1 r = 62 then some (.pointer, r.drop 2)
    else some (.minus, r.drop 1)
  else if b = 43 then
    if next1 r = 61 then some (.plusAssign, r.drop 2)
    else if next1 r = 43 then some (.plusPlus, r.drop 2)
    else some (.plus, r.drop 1)
  else if b = 0 then some (.eof, r.tail)
  else some (.error b, r.tail)

/-- The bytes of an ASCII source string. -/
def strBytes (s : String) : List Nat := s.data.map Char.toNat

/-! ## Parser fragment (`src/parser.rs`) and external numeric parsers -/

/-- Modelled from the spec: the standard library integer parser
(`str::parse::<i32>` of the host language) that `parse_expression_base`
applies to integer-literal text — not part of this repository's sources.  It
accepts an optional single leading `+`/`-` sign followed by one or more
ASCII decimal digits and nothing else, rejecting out-of-range values;
leading zeros are accepted and ignored, and any other byte (such as the `x`
of a hex prefix) makes it fail. -/
def rustParseI32 (s : String) : Option Int :=
  let withSign : Bool × List Char :=
    match s.data with
    | '-' :: rest => (true, rest)
    | '+' :: rest => (false, rest)
    | cs => (false, cs)
  let digits := withSign.2
  if digits = [] then none
  else if digits.all Char.isDigit then
    let n : Nat := digits.foldl (fun a c => a * 10 + (c.toNat - 48)) 0
    let v : Int := if withSign.1 then -(n : Int) else (n : Int)
    if -(2 ^ 31) ≤ v ∧ v ≤ 2 ^ 31 - 1 then some v else none
  else none

/-- The `Token::IntLiteral` arm of `parse_expression_base`:
`Expression::Int { value: text.parse::<i32>().unwrap() }`.  `none` is the
panic of the `unwrap` when the parse fails. -/
def intLiteralArm (text : String) : Option Expression :=
  (rustParseI32 text).map fun n => Expression.int n

/-- Modelled from the spec: the exact rational value a "standard numeric
parser" assigns to decimal floating literal text of the shape
`[digits] [. digits] [e|E [+|-] digits]` — the reference reading used by the
spec's lexing round-trip property; the host library float parser is not part
of this repository's sources.  Two literal texts denoting the same rational
are parsed to the same floating value by any correctly rounding parser. -/
def litValue (s : String) : Option Rat :=
  let intPart := s.data.takeWhile Char.isDigit
  let r₁ := s.data.dropWhile Char.isDigit
  let fracRest : List Char × List Char :=
    match r₁ with
    | '.' :: t => (t.takeWhile Char.isDigit, t.dropWhile Char.isDigit)
    | _ => ([], r₁)
  let fracPart := fracRest.1
  let r₂ := fracRest.2
  if intPart = [] ∧ fracPart = [] then none
  else
    let digitsVal : List Char → Nat :=
      fun cs => cs.foldl (fun a c => a * 10 + (c.toNat - 48)) 0
    let base : Rat :=
      (digitsVal (intPart ++ fracPart) : Rat) / ((10 : Rat) ^ fracPart.length)
    match r₂ with
    | [] => some base
    | e :: t =>
      if e = 'e' ∨ e = 'E' then
        let signRest : Bool × List Char :=
          match t with
          | '+' :: u => (false, u)
          | '-' :: u => (true, u)
          | u => (false, u)
        let expDigits := signRest.2.takeWhile Char.isDigit
        if expDigits = [] ∨ signRest.2.dropWhile Char.isDigit ≠ [] then none
        else
          let ex := digitsVal expDigits
          some (if signRest.1 then base / (10 : Rat) ^ ex
                else base * (10 : Rat) ^ ex)
      else none

/-! ## Concrete programs used by the claims -/

/-- AST of `typedef Pair = Pair(a, b); Pair 1 2`. -/
def pairProg : Program :=
  { statements :=
      [ .typeDef
          { name := "Pair"
            variants := [ { name := "Pair", properties := ["a", "b"] } ] }
        , .expr (.funCall "Pair" [.int 1, .int 2]) ] }

/-- AST of `make = { { 1 } }; f = make; f` (a lambda escaping the invocation
that declared it). -/
def escapeProg : Program :=
  { statements :=
      [ .varDecl "make" (.lambda [] [.expr (.lambda [] [.expr (.int 1)])])
        , .varDecl "f" (.funCall "make" [])
        , .expr (.funCall "f" []) ] }

/-- AST of `f = { p, q | p }; f 1 2`. -/
def firstParamProg : Program :=
  { statements :=
      [ .varDecl "f" (.lambda ["p", "q"] [.expr (.funCall "p" [])])
        , .expr (.funCall "f" [.int 1, .int 2]) ] }

/-- AST of `f = { p, q | q }; f 1 2`. -/
def secondParamProg : Program :=
  { statements :=
      [ .varDecl "f" (.lambda ["p", "q"] [.expr (.funCall "q" [])])
        , .expr (.funCall "f" [.int 1, .int 2]) ] }

/-- AST of `[1, 2]`. -/
def listProg : Program :=
  { statements := [.expr (.list [.int 1, .int 2])] }

/-- AST of `[1, 2, 3]`. -/
def listProg3 : Program :=
  { statements := [.expr (.list [.int 1, .int 2, .int 3])] }

/-- AST of `(1, 2, 3)`. -/
def tupleProg3 : Program :=
  { statements := [.expr (.tuple [.int 1, .int 2, .int 3])] }

/-- AST of a bare call of the unbound name `foo`. -/
def undefinedProg : Program :=
  { statements := [.expr (.funCall "foo" [])] }

/-- An empty stack frame, as pushed for a function without nested tables. -/
def frame0 : StackFrame := { vars := [], functions := [], instanceClasses := [], idToClass := [] }

/-! ## Helper lemmas -/

/-- On input that contains neither an unescaped quote (byte 34) nor a
backslash (byte 92), the `read_string` loop never exits, no matter how many
iterations it is allowed: at end of input it keeps consuming the sentinel
byte `0` through its catch-all arm. -/
theorem readStringAux_none_of_no_quote :
    ∀ (fuel : Nat) (r : List Nat) (content : String),
      (∀ b ∈ r, b ≠ 34 ∧ b ≠ 92) →
      readStringAux fuel r content = none := by
  intro fuel
  induction fuel with
  | zero => intro r content _; rfl
  | succ fuel ih =>
    intro r content h
    match r with
    | [] =>
      show readStringAux (fuel + 1) [] content = none
      simp only [readStringAux, current]
      norm_num
      exact ih [] _ (by simp)
    | b :: r' =>
      obtain ⟨h34, h92⟩ := h b (List.mem_cons_self b r')
      show readStringAux (fuel + 1) (b :: r') content = none
      simp only [readStringAux, current, List.headD_cons, if_neg h34, if_neg h92]
      exact ih r' _ (fun x hx => h x (List.mem_cons_of_mem b hx))

/-! ## Claims -/

/-- C7: "For every input in which a string literal is opened by a
double-quote character but never closed before end-of-input, the lexer's
`next()` call terminates, consuming the rest of the input and returning a
`StringLiteral` token containing the remaining text, after which it yields
an unbounded stream of `Eof` tokens."  The code does the opposite: on the
unterminated string `"abc` the `read_string` loop — which, unlike
`trim_comments`, never checks for the end of input — runs forever appending
sentinel NUL bytes, so `next()` never returns however many loop iterations
it is granted. -/
theorem c7_unterminated_string_diverges :
    ∀ fuel : Nat, nextToken fuel (strBytes "\"abc") = none := by
  intro fuel
  exact readStringAux_none_of_no_quote fuel [97, 98, 99] "" (by decide)

/-- C8 counterexample: lexing `.123e123l` does NOT produce the literal text
`.123e+123`; `read_number`'s leading-dot branch first pushes `'0'`, so the
emitted text is `0.123e+123`. -/
theorem c8_float_text_counterexample :
    nextToken 100 (strBytes ".123e123l")
      = some (.floatingLiteral "0.123e+123", [])
    ∧ "0.123e+123" ≠ ".123e+123" :=
  ⟨rfl, by decide⟩

/-- C8 amended: lexing `.123e123l` produces a single `FloatingLiteral` token
whose text is `0.123e+123` (the lexer prepends `0` before the dot and makes
the exponent sign explicit), and that text, re-parsed by a standard numeric
parser, still denotes exactly the numeric value of the source literal
`.123e123`. -/
theorem c8_float_text_amended :
    nextToken 100 (strBytes ".123e123l")
      = some (.floatingLiteral "0.123e+123", [])
    ∧ litValue "0.123e+123" = litValue ".123e123"
    ∧ (litValue ".123e123").isSome = true :=
  ⟨rfl, rfl, rfl⟩

/-- The hex-digit loop of `read_number` only ever appends to the text it
was seeded with, so the `0x` seed stays a prefix of the emitted literal. -/
theorem readHexDigits_seed_stays :
    ∀ (r : List Nat) (id : String),
      ∃ cs, (readHexDigits r id).1.data = id.data ++ cs := by
  intro r
  induction r with
  | nil => intro id; exact ⟨[], by simp [readHexDigits]⟩
  | cons b r ih =>
    intro id
    by_cases hb : isHexDigitByte b
    · obtain ⟨cs, hcs⟩ := ih (id.push (Char.ofNat (toUpperByte b)))
      refine ⟨Char.ofNat (toUpperByte b) :: cs, ?_⟩
      rw [readHexDigits, if_pos hb, hcs]
      simp
    · exact ⟨[], by simp [readHexDigits, hb]⟩

/-- Embeds `str::parse::<i32>` fails on any text whose characters start `0`, `x`:
the `x` is not an ASCII digit. -/
theorem rustParseI32_hex_none (text : String) (cs : List Char)
    (h : text.data = '0' :: 'x' :: cs) : rustParseI32 text = none := by
  unfold rustParseI32
  rw [h]
  simp

/-- C10: parsing is not total over lexable inputs: for every source
position at a hexadecimal integer literal (a `0` followed by `x` or `X`),
`read_number` emits an `IntegerLiteral` whose text retains the `0x` prefix,
and the integer-literal arm of `parse_expression_base`
(`text.parse::<i32>().unwrap()`) panics on that text; concretely so for
`0xABC`.  Relatedly, octal-looking literal text `01234567` is parsed by the
same call as the decimal value `1234567`. -/
theorem c10_parser_int_literal_panics :
    (∀ r : List Nat, current r = 48 → next1 r = 120 ∨ next1 r = 88 →
       ∃ (s : String) (rest : List Nat),
         readNumber r = (.integerLiteral ("0x" ++ s), rest)
         ∧ rustParseI32 ("0x" ++ s) = none)
    ∧ nextToken 100 (strBytes "0xABC") = some (.integerLiteral "0xABC", [])
    ∧ intLiteralArm "0xABC" = none
    ∧ nextToken 100 (strBytes "01234567")
        = some (.integerLiteral "01234567", [])
    ∧ intLiteralArm "01234567" = some (.int 1234567) := by
  refine ⟨?_, rfl, rfl, rfl, rfl⟩
  intro r h0 hx
  have ht : current r.tail = next1 r := by cases r <;> rfl
  obtain ⟨cs, hcs⟩ := readHexDigits_seed_stays r.tail.tail "0x"
  have hstr : (readHexDigits r.tail.tail "0x").1 = "0x" ++ String.mk cs := by
    apply String.ext
    rw [hcs]
    rfl
  have hdig : ¬ isDigitByte (current r.tail) := by
    rw [ht]
    rcases hx with hx | hx <;> rw [hx] <;> decide
  have hhex : current r.tail = 120 ∨ current r.tail = 88 := by rw [ht]; exact hx
  refine ⟨String.mk cs, skipIntSuffixes (readHexDigits r.tail.tail "0x").2,
    ?_, ?_⟩
  · rw [readNumber, if_pos h0, if_neg hdig, if_pos hhex]
    show (Token.integerLiteral (readHexDigits r.tail.tail "0x").1,
        skipIntSuffixes (readHexDigits r.tail.tail "0x").2) = _
    rw [hstr]
  · exact rustParseI32_hex_none _ cs (by simp)

/-- Witness for C10's general hex conjunct at the source `0xABC`. -/
theorem c10_parser_int_literal_panics_witness :
    ∃ (s : String) (rest : List Nat),
      readNumber (strBytes "0xABC") = (.integerLiteral ("0x" ++ s), rest)
      ∧ rustParseI32 ("0x" ++ s) = none :=
  c10_parser_int_literal_panics.1 (strBytes "0xABC") rfl (Or.inl rfl)

/-- C5 counterexample: `typedef Pair = Pair(a, b); Pair 1 2` produces an
instance whose property vector is `[Int 2, Int 1]` — the two argument
values in *reverse* declared property order (the constructor stores the
values in the order they are popped and never reverses them), not
`[Int 1, Int 2]` as the claim states. -/
theorem c5_instance_order_counterexample :
    runProgram initialRuntime 100 (compileProgram pairProg)
      = .ok (.instance 0 [.int 2, .int 1])
    ∧ [Value.int 2, Value.int 1] ≠ [Value.int 1, Value.int 2] :=
  ⟨rfl, by simp⟩

/-- C5 amended: `typedef Pair = Pair(a, b); Pair 1 2` produces a
`Value::Instance` of the `Pair` constructor's class (id 0) whose stored
properties are the two argument values in *reverse* declared property order
(`properties[0] = Int 2`, `properties[1] = Int 1`), and whose class id is
distinct from the id of every natively-registered (builtin) class. -/
theorem c5_instance_order_amended :
    runProgram initialRuntime 100 (compileProgram pairProg)
      = .ok (.instance 0 [.int 2, .int 1])
    ∧ ∀ p ∈ initialRuntime.builtinInstanceClasses, p.2.id ≠ 0 :=
  ⟨rfl, by decide⟩

/-- C9: a closure value called after every frame holding its id in a
nested-lambda table has been popped makes the VM panic on the `unwrap` of
the failed `Env::get_function` lookup instead of returning a
`RuntimeError`; in particular the program `make = { { 1 } }; f = make; f`
panics.  (The lookup — and hence the panic — happens before any argument is
popped.) -/
theorem c9_escaped_closure_panics :
    (∀ (fuel : Nat) (rt : Runtime) (env : Env) (name : String) (fid : Nat)
       (rest : List Inst) (stack : List Value),
       envGet env name = some (.function fid) →
       envGetFunction env fid = none →
       runCode rt (fuel + 1) env (.call name :: rest) stack = .panic)
    ∧ runProgram initialRuntime 100 (compileProgram escapeProg) = .panic := by
  constructor
  · intro fuel rt env name fid rest stack h₁ h₂
    simp only [runCode, h₁, h₂]
  · rfl

/-- Witness for C9 at a concrete state: the topmost (only) frame binds `f`
to a closure with id 0 but no live frame's table knows id 0. -/
theorem c9_escaped_closure_panics_witness :
    runCode initialRuntime 1
      [{ frame0 with vars := [("f", Value.function 0)] }]
      [.call "f"] [] = .panic :=
  c9_escaped_closure_panics.1 0 initialRuntime
    [{ frame0 with vars := [("f", Value.function 0)] }] "f" 0 [] [] rfl rfl

/-- C6: a `Call(name)` whose name is bound neither as a variable in any live
frame, nor as a local type constructor, nor as a native function, nor as a
builtin type constructor fails with `RuntimeError::UndefinedName(name)` —
never with `StackUnderflow`: the equation holds for *every* operand stack,
including the empty one, because no operand is popped before resolution
succeeds.  Concretely, the program `foo` fails with the undefined-name
error. -/
theorem c6_undefined_name_error :
    (∀ (fuel : Nat) (rt : Runtime) (env : Env) (name : String)
       (rest : List Inst) (stack : List Value),
       envGet env name = none →
       envGetInstanceClass env name = none →
       lookupKey rt.builtinFunctions name = none →
       lookupKey rt.builtinInstanceClasses name = none →
       runCode rt (fuel + 1) env (.call name :: rest) stack
         = .err (.undefinedName name))
    ∧ runProgram initialRuntime 100 (compileProgram undefinedProg)
        = .err (.undefinedName "foo") := by
  constructor
  · intro fuel rt env name rest stack h₁ h₂ h₃ h₄
    simp only [runCode, h₁, h₂, h₃, h₄]
  · rfl

/-- Witness for C6 on the empty operand stack of a fresh runtime. -/
theorem c6_undefined_name_error_witness :
    runCode Runtime.new 1 [] [.call "g"] [] = .err (.undefinedName "g") :=
  c6_undefined_name_error.1 0 Runtime.new [] "g" [] [] rfl rfl rfl rfl

/-- C4 counterexample: the list literal `[1, 2]` does NOT evaluate to a list
holding the element values in source order: `List(n)` pops the `n` values
into the result vector in pop order and never reverses it, so the program
yields `List [Int 2, Int 1]`, whose element 0 is the value of `e2`, not of
`e1`. -/
theorem c4_container_order_counterexample :
    runProgram initialRuntime 100 (compileProgram listProg)
      = .ok (.list [.int 2, .int 1])
    ∧ Value.list [.int 2, .int 1] ≠ Value.list [.int 1, .int 2] :=
  ⟨rfl, by simp⟩

/-- C4 amended: after the `n` element expressions are evaluated and pushed
left to right (operand stack `vs.reverse ++ stack` for source-order values
`vs`), executing `List(n)`/`Tuple(n)` pops the `n` values and the resulting
container holds them in *reverse* source order (`vs.reverse`, i.e. element
`i` is the value of element expression `n-1-i`); concretely `[1, 2, 3]`
evaluates to `List [3, 2, 1]` and `(1, 2, 3)` to `Tuple [3, 2, 1]`. -/
theorem c4_container_order_amended :
    (∀ (fuel : Nat) (rt : Runtime) (env : Env) (n : Nat) (vs : List Value)
       (rest : List Inst) (stack : List Value), vs.length = n →
       runCode rt (fuel + 1) env (.list n :: rest) (vs.reverse ++ stack)
         = runCode rt fuel env rest (.list vs.reverse :: stack))
    ∧ (∀ (fuel : Nat) (rt : Runtime) (env : Env) (n : Nat) (vs : List Value)
       (rest : List Inst) (stack : List Value), vs.length = n →
       runCode rt (fuel + 1) env (.tuple n :: rest) (vs.reverse ++ stack)
         = runCode rt fuel env rest (.tuple vs.reverse :: stack))
    ∧ runProgram initialRuntime 100 (compileProgram listProg3)
        = .ok (.list [.int 3, .int 2, .int 1])
    ∧ runProgram initialRuntime 100 (compileProgram tupleProg3)
        = .ok (.tuple [.int 3, .int 2, .int 1]) := by
  have hpop : ∀ (n : Nat) (vs stack : List Value), vs.length = n →
      popN n (vs.reverse ++ stack) = some (vs.reverse, stack) := by
    intro n vs stack h
    subst h
    have hlen : vs.reverse.length = vs.length := List.length_reverse vs
    simp only [popN, ← hlen, List.take_left, List.drop_left,
      List.length_append, if_pos (Nat.le_add_right _ _)]
  refine ⟨?_, ?_, rfl, rfl⟩
  · intro fuel rt env n vs rest stack h
    simp only [runCode, hpop n vs stack h]
  · intro fuel rt env n vs rest stack h
    simp only [runCode, hpop n vs stack h]

/-- Witness for C4 amended: both equations at `vs = [1, 2]` on the empty
surrounding stack. -/
theorem c4_container_order_amended_witness :
    runCode initialRuntime 1 [] [.list 2] [Value.int 2, Value.int 1]
      = runCode initialRuntime 0 [] [] [.list [.int 2, .int 1]]
    ∧ runCode initialRuntime 1 [] [.tuple 2] [Value.int 2, Value.int 1]
      = runCode initialRuntime 0 [] [] [.tuple [.int 2, .int 1]] :=
  ⟨c4_container_order_amended.1 0 initialRuntime [] 2
      [.int 1, .int 2] [] [] rfl
    , c4_container_order_amended.2.1 0 initialRuntime [] 2
      [.int 1, .int 2] [] [] rfl⟩

/-- Characterization of a topmost-to-bottommost first-match scan over the
frame stack (shared by `Env::get` and `Env::get_instance_class`): the scan
returns `some v` exactly when some frame index `i` (0 = topmost) holds `v`
under the key while every strictly more inner frame misses the key. -/
theorem scan_first_match {β : Type} (proj : StackFrame → List (String × β))
    (scan : Env → String → Option β)
    (hnil : ∀ name, scan [] name = none)
    (hcons : ∀ f fs name, scan (f :: fs) name =
        match lookupKey (proj f) name with
        | some v => some v
        | none => scan fs name) :
    ∀ (env : Env) (name : String) (v : β),
      scan env name = some v ↔
        ∃ i, (∃ f, env.get? i = some f ∧ lookupKey (proj f) name = some v)
          ∧ ∀ j, j < i → ∀ g, env.get? j = some g →
              lookupKey (proj g) name = none := by
  intro env name
  induction env with
  | nil =>
    intro v
    simp [hnil]
  | cons f fs ih =>
    intro v
    rw [hcons]
    cases hv : lookupKey (proj f) name with
    | some w =>
      simp only
      constructor
      · intro h
        refine ⟨0, ⟨f, rfl, ?_⟩, ?_⟩
        · rw [hv, h]
        · intro j hj
          omega
      · rintro ⟨i, ⟨g, hg, hlk⟩, hmin⟩
        match i with
        | 0 =>
          rw [List.get?_cons_zero] at hg
          injection hg with hg
          subst hg
          rw [hlk] at hv
          exact hv.symm
        | k + 1 =>
          have := hmin 0 (Nat.succ_pos k) f List.get?_cons_zero
          rw [this] at hv
          exact Option.noConfusion hv
    | none =>
      simp only
      rw [ih v]
      constructor
      · rintro ⟨i, ⟨g, hg, hlk⟩, hmin⟩
        refine ⟨i + 1, ⟨g, ?_, hlk⟩, ?_⟩
        · rwa [List.get?_cons_succ]
        · intro j hj g' hg'
          match j with
          | 0 =>
            rw [List.get?_cons_zero] at hg'
            injection hg' with hg'
            subst hg'
            exact hv
          | k + 1 =>
            rw [List.get?_cons_succ] at hg'
            exact hmin k (by omega) g' hg'
      · rintro ⟨i, ⟨g, hg, hlk⟩, hmin⟩
        match i with
        | 0 =>
          rw [List.get?_cons_zero] at hg
          injection hg with hg
          subst hg
          rw [hlk] at hv
          exact Option.noConfusion hv
        | k + 1 =>
          rw [List.get?_cons_succ] at hg
          refine ⟨k, ⟨g, hg, hlk⟩, ?_⟩
          intro j hj g' hg'
          exact hmin (j + 1) (by omega) g' (by rwa [List.get?_cons_succ])

/-- C2: name resolution for reading — both `Env::get` (variables) and the
local type-constructor lookup `Env::get_instance_class` — scans all live
frames from the topmost (index 0, innermost) to the bottommost and returns
the first match, so a callee can observe bindings of any caller still on
the stack; whereas `Env::set` only rewrites the topmost frame (inserting
the binding there) and leaves every ancestor frame untouched. -/
theorem c2_scope_visibility :
    (∀ (env : Env) (name : String) (v : Value),
       envGet env name = some v ↔
         ∃ i, (∃ f, env.get? i = some f ∧ lookupKey f.vars name = some v)
           ∧ ∀ j, j < i → ∀ g, env.get? j = some g →
               lookupKey g.vars name = none)
    ∧ (∀ (env : Env) (name : String) (c : InstanceClass),
       envGetInstanceClass env name = some c ↔
         ∃ i, (∃ f, env.get? i = some f
                 ∧ lookupKey f.instanceClasses name = some c)
           ∧ ∀ j, j < i → ∀ g, env.get? j = some g →
               lookupKey g.instanceClasses name = none)
    ∧ (∀ (env : Env) (name : String) (v : Value),
       (envSet env name v).length = env.length
       ∧ (∀ i, 0 < i → (envSet env name v).get? i = env.get? i)
       ∧ ∀ f, env.get? 0 = some f →
           (envSet env name v).get? 0
             = some { f with vars := insertKey f.vars name v }) := by
  refine ⟨?_, ?_, ?_⟩
  · exact scan_first_match (fun f => f.vars) envGet (fun _ => rfl)
      (fun f fs name => by cases hv : lookupKey f.vars name <;> simp [envGet, hv])
  · exact scan_first_match (fun f => f.instanceClasses) envGetInstanceClass
      (fun _ => rfl) (fun f fs name => by
        cases hv : lookupKey f.instanceClasses name <;>
          simp [envGetInstanceClass, hv])
  · intro env name v
    match env with
    | [] => exact ⟨rfl, fun i _ => rfl, fun f hf => Option.noConfusion hf⟩
    | f :: fs =>
      refine ⟨rfl, ?_, ?_⟩
      · intro i hi
        match i with
        | 0 => omega
        | k + 1 => rfl
      · intro g hg
        rw [List.get?_cons_zero] at hg
        injection hg with hg
        subst hg
        rfl

/-- Witness for C2: in a two-frame stack whose bottom (caller) frame binds
`x`, the scan finds `x` across the frame boundary, and `Env::set` of a new
name leaves the caller frame untouched. -/
theorem c2_scope_visibility_witness :
    (∃ i, (∃ f, [frame0, { frame0 with vars := [("x", Value.int 1)] }].get? i
            = some f ∧ lookupKey f.vars "x" = some (Value.int 1))
       ∧ ∀ j, j < i → ∀ g,
           [frame0, { frame0 with vars := [("x", Value.int 1)] }].get? j
             = some g → lookupKey g.vars "x" = none)
    ∧ (envSet [frame0, { frame0 with vars := [("x", Value.int 1)] }] "z"
          (Value.int 3)).get? 1
        = [frame0, { frame0 with vars := [("x", Value.int 1)] }].get? 1 :=
  ⟨(c2_scope_visibility.1
      [frame0, { frame0 with vars := [("x", Value.int 1)] }] "x"
      (Value.int 1)).mp rfl
    , (c2_scope_visibility.2.2
        [frame0, { frame0 with vars := [("x", Value.int 1)] }] "z"
        (Value.int 3)).2.1 1 (by omega)⟩

/-- C3: executing `Call(name)` resolves the name in this fixed order, first
match winning: (1) a variable binding in any live frame (pushed as a value
when it is not a closure, invoked when it is); (2) a locally-declared type
constructor in any live frame; (3) a natively-registered function; (4) a
natively-registered (builtin) type constructor; (5) otherwise the
undefined-name runtime error.  Each equation's hypotheses state exactly
that every earlier resolution step missed. -/
theorem c3_call_resolution_order :
    (∀ (fuel : Nat) (rt : Runtime) (env : Env) (name : String) (v : Value)
       (rest : List Inst) (stack : List Value),
       envGet env name = some v → (∀ fid, v ≠ .function fid) →
       runCode rt (fuel + 1) env (.call name :: rest) stack
         = runCode rt fuel env rest (v :: stack))
    ∧ (∀ (fuel : Nat) (rt : Runtime) (env : Env) (name : String) (fid : Nat)
       (func : CompiledFunction) (args s : List Value) (rest : List Inst)
       (stack : List Value),
       envGet env name = some (.function fid) →
       envGetFunction env fid = some func →
       popN func.args stack = some (args, s) →
       runCode rt (fuel + 1) env (.call name :: rest) stack
         = match runCode rt fuel (envPush env func) func.code args.reverse with
           | .ok (env₂, result) => runCode rt fuel (envPop env₂) rest (result :: s)
           | .err e => .err e
           | .panic => .panic
           | .fuelOut => .fuelOut)
    ∧ (∀ (fuel : Nat) (rt : Runtime) (env : Env) (name : String)
       (cls : InstanceClass) (props s : List Value) (rest : List Inst)
       (stack : List Value),
       envGet env name = none →
       envGetInstanceClass env name = some cls →
       popN cls.properties.length stack = some (props, s) →
       runCode rt (fuel + 1) env (.call name :: rest) stack
         = runCode rt fuel env rest (.instance cls.id props :: s))
    ∧ (∀ (fuel : Nat) (rt : Runtime) (env : Env) (name : String)
       (bf : BuiltinFunction) (args s : List Value) (rest : List Inst)
       (stack : List Value),
       envGet env name = none →
       envGetInstanceClass env name = none →
       lookupKey rt.builtinFunctions name = some bf →
       popN bf.args stack = some (args, s) →
       runCode rt (fuel + 1) env (.call name :: rest) stack
         = match bf.func args with
           | .ok result => runCode rt fuel env rest (result :: s)
           | .err e => .err e
           | .panic => .panic
           | .fuelOut => .fuelOut)
    ∧ (∀ (fuel : Nat) (rt : Runtime) (env : Env) (name : String)
       (cls : InstanceClass) (props s : List Value) (rest : List Inst)
       (stack : List Value),
       envGet env name = none →
       envGetInstanceClass env name = none →
       lookupKey rt.builtinFunctions name = none →
       lookupKey rt.builtinInstanceClasses name = some cls →
       popN cls.properties.length stack = some (props, s) →
       runCode rt (fuel + 1) env (.call name :: rest) stack
         = runCode rt fuel env rest (.instance cls.id props :: s))
    ∧ (∀ (fuel : Nat) (rt : Runtime) (env : Env) (name : String)
       (rest : List Inst) (stack : List Value),
       envGet env name = none →
       envGetInstanceClass env name = none →
       lookupKey rt.builtinFunctions name = none →
       lookupKey rt.builtinInstanceClasses name = none →
       runCode rt (fuel + 1) env (.call name :: rest) stack
         = .err (.undefinedName name)) := by
  refine ⟨?_, ?_, ?_, ?_, ?_, ?_⟩
  · intro fuel rt env name v rest stack h₁ h₂
    cases v
    all_goals first
      | exact absurd rfl (h₂ _)
      | simp only [runCode, h₁]
  · intro fuel rt env name fid func args s rest stack h₁ h₂ h₃
    simp only [runCode, h₁, h₂, h₃]
  · intro fuel rt env name cls props s rest stack h₁ h₂ h₃
    simp only [runCode, h₁, h₂, h₃]
  · intro fuel rt env name bf args s rest stack h₁ h₂ h₃ h₄
    simp only [runCode, h₁, h₂, h₃, h₄]
  · intro fuel rt env name cls props s rest stack h₁ h₂ h₃ h₄ h₅
    simp only [runCode, h₁, h₂, h₃, h₄, h₅]
  · intro fuel rt env name rest stack h₁ h₂ h₃ h₄
    simp only [runCode, h₁, h₂, h₃, h₄]

/-- The one-instruction function body used by the C3 witness. -/
def constNineFunction : CompiledFunction :=
  { args := 0, code := [.int 9], functions := [], instanceClasses := [] }

/-- A locally-declared class used by the C3 witness. -/
def localKClass : InstanceClass :=
  { id := 5
    typedef := { name := "K", variants := [ { name := "K", properties := [] } ] }
    variant := "K"
    properties := [] }

/-- Witness for C3: each of the six resolution steps exercised at a
concrete state — a non-closure variable, a closure call, a local type
constructor, the builtin `print` function, the builtin `True` constructor,
and an unbound name. -/
theorem c3_call_resolution_order_witness :
    runCode initialRuntime 1 [{ frame0 with vars := [("x", Value.int 5)] }]
      [.call "x"] []
      = runCode initialRuntime 0 [{ frame0 with vars := [("x", Value.int 5)] }]
          [] [.int 5]
    ∧ runCode initialRuntime 3
        [{ frame0 with
            vars := [("f", Value.function 3)]
            functions := [(3, constNineFunction)] }]
        [.call "f"] [] = .ok
          ([{ frame0 with
              vars := [("f", Value.function 3)]
              functions := [(3, constNineFunction)] }], .int 9)
    ∧ runCode initialRuntime 1
        [{ frame0 with instanceClasses := [("K", localKClass)] }]
        [.call "K"] []
        = runCode initialRuntime 0
            [{ frame0 with instanceClasses := [("K", localKClass)] }]
            [] [.instance 5 []]
    ∧ runCode initialRuntime 2 [] [.call "print"] [Value.int 2]
        = .ok ([], .int 2)
    ∧ runCode initialRuntime 1 [] [.call "True"] []
        = runCode initialRuntime 0 [] [] [.instance 100000 []]
    ∧ runCode initialRuntime 1 [] [.call "zzz"] []
        = .err (.undefinedName "zzz") :=
  ⟨c3_call_resolution_order.1 0 initialRuntime
      [{ frame0 with vars := [("x", Value.int 5)] }] "x" (.int 5) [] [] rfl
      (fun _ h => Value.noConfusion h)
    , c3_call_resolution_order.2.1 2 initialRuntime
      [{ frame0 with
          vars := [("f", Value.function 3)]
          functions := [(3, constNineFunction)] }]
      "f" 3 constNineFunction [] [] [] [] rfl rfl rfl
    , c3_call_resolution_order.2.2.1 0 initialRuntime
      [{ frame0 with instanceClasses := [("K", localKClass)] }]
      "K" localKClass [] [] [] [] rfl rfl rfl
    , c3_call_resolution_order.2.2.2.1 1 initialRuntime [] "print"
      { args := 1, func := printBuiltin } [.int 2] [] [] [.int 2]
      rfl rfl rfl rfl
    , c3_call_resolution_order.2.2.2.2.1 0 initialRuntime [] "True"
      { id := 100000
        typedef :=
          { name := "Boolean"
            variants :=
              [ { name := "True", properties := [] }
                , { name := "False", properties := [] } ] }
        variant := "True"
        properties := [] }
      [] [] [] [] rfl rfl rfl rfl rfl
    , c3_call_resolution_order.2.2.2.2.2 0 initialRuntime [] "zzz" [] []
      rfl rfl rfl rfl⟩

/-! ## Helper lemmas for C1 (parameter-binding prologue) -/

/-- Sequential `Env::set`s, in execution order of the prologue's `Set`
instructions. -/
def envSetList (env : Env) (ps : List (String × Value)) : Env :=
  ps.foldl (fun e p => envSet e p.1 p.2) env

/-- A single `Set` instruction pops the top of stack and binds it in the
topmost frame. -/
theorem runCode_set_step (rt : Runtime) (fuel : Nat) (env : Env)
    (name : String) (v : Value) (stack : List Value) (rest : List Inst) :
    runCode rt (fuel + 1) env (.set name :: rest) (v :: stack)
      = runCode rt fuel (envSet env name v) rest stack := rfl

/-- Running the `Set` prologue `qs.map set` over an initial operand stack
holding exactly the values `vs` performs the sequential bindings
`envSetList` and continues with the rest of the code on an empty stack. -/
theorem runCode_prologue (rt : Runtime) :
    ∀ (qs : List String) (vs : List Value) (fuel : Nat) (env : Env)
      (rest : List Inst),
      qs.length = vs.length →
      runCode rt (fuel + qs.length) env (qs.map Inst.set ++ rest) vs
        = runCode rt fuel (envSetList env (qs.zip vs)) rest [] := by
  intro qs
  induction qs with
  | nil =>
    intro vs fuel env rest h
    have hv : vs = [] := List.length_eq_zero.mp h.symm
    subst hv
    rfl
  | cons q qs ih =>
    intro vs fuel env rest h
    match vs with
    | [] => simp at h
    | v :: vs' =>
      have h' : qs.length = vs'.length := by simpa using h
      have hstep :
          runCode rt ((fuel + qs.length) + 1) env
            (Inst.set q :: (qs.map Inst.set ++ rest)) (v :: vs')
            = runCode rt (fuel + qs.length) (envSet env q v)
                (qs.map Inst.set ++ rest) vs' :=
        runCode_set_step rt (fuel + qs.length) env q v vs'
          (qs.map Inst.set ++ rest)
      calc runCode rt (fuel + (qs.length + 1)) env
              ((q :: qs).map Inst.set ++ rest) (v :: vs')
          = runCode rt (fuel + qs.length) (envSet env q v)
              (qs.map Inst.set ++ rest) vs' := hstep
        _ = runCode rt fuel (envSetList (envSet env q v) (qs.zip vs'))
              rest [] := ih vs' fuel (envSet env q v) rest h'
        _ = runCode rt fuel (envSetList env ((q :: qs).zip (v :: vs')))
              rest [] := rfl

theorem envSet_ne_nil {env : Env} (h : env ≠ []) (k : String) (v : Value) :
    envSet env k v ≠ [] := by
  match env with
  | [] => exact absurd rfl h
  | f :: fs => simp [envSet]

theorem envGet_envSet_same {env : Env} (h : env ≠ []) (k : String)
    (v : Value) : envGet (envSet env k v) k = some v := by
  match env with
  | [] => exact absurd rfl h
  | f :: fs => simp [envSet, envGet, insertKey, lookupKey]

theorem envGet_envSet_ne (env : Env) {k k' : String} (v : Value)
    (h : k ≠ k') : envGet (envSet env k v) k' = envGet env k' := by
  match env with
  | [] => rfl
  | f :: fs => simp [envSet, envGet, insertKey, lookupKey, h]

theorem envSetList_ne_nil :
    ∀ (ps : List (String × Value)) {env : Env}, env ≠ [] →
      envSetList env ps ≠ [] := by
  intro ps
  induction ps with
  | nil => intro env h; exact h
  | cons p ps ih =>
    intro env h
    exact ih (envSet_ne_nil h p.1 p.2)

theorem envGet_envSetList_not_mem :
    ∀ (ps : List (String × Value)) (env : Env) (k : String),
      k ∉ ps.map Prod.fst →
      envGet (envSetList env ps) k = envGet env k := by
  intro ps
  induction ps with
  | nil => intro env k _; rfl
  | cons p ps ih =>
    intro env k hk
    have h₁ : p.1 ≠ k := by
      intro h
      exact hk (by simp [h])
    have h₂ : k ∉ ps.map Prod.fst := by
      intro h
      exact hk (by simp [h])
    calc envGet (envSetList (envSet env p.1 p.2) ps) k
        = envGet (envSet env p.1 p.2) k := ih _ k h₂
      _ = envGet env k := envGet_envSet_ne env p.2 h₁

/-- After the sequential inserts of `envSetList`, a key inserted exactly
once (keys pairwise distinct) reads back its inserted value. -/
theorem envGet_envSetList_mem :
    ∀ (ps : List (String × Value)) (env : Env) (k : String) (w : Value),
      env ≠ [] → (ps.map Prod.fst).Nodup → (k, w) ∈ ps →
      envGet (envSetList env ps) k = some w := by
  intro ps
  induction ps with
  | nil => intro env k w _ _ h; cases h
  | cons p ps ih =>
    rcases p with ⟨pk, pv⟩
    intro env k w hne hnd hmem
    rw [List.map_cons] at hnd
    have hnd' := List.nodup_cons.mp hnd
    rcases List.mem_cons.mp hmem with heq | htail
    · injection heq with hk hw
      subst hk; subst hw
      calc envGet (envSetList (envSet env k w) ps) k
          = envGet (envSet env k w) k :=
            envGet_envSetList_not_mem ps _ k hnd'.1
        _ = some w := envGet_envSet_same hne k w
    · exact ih (envSet env pk pv) k w (envSet_ne_nil hne pk pv)
        hnd'.2 htail

/-! ## Helper lemmas for C1 (compiled code shape) -/

/-- Embeds `compileTypeDef` touches only the nested type table: the arity and the
emitted code are untouched. -/
theorem compileTypeDef_extends (td : TypeDef) :
    ∀ (variants : List TypeDefVariant) (node : CompiledFunction) (nid : Nat),
      (compileTypeDef td variants node nid).1.args = node.args
      ∧ (compileTypeDef td variants node nid).1.code = node.code := by
  intro variants
  induction variants with
  | nil => intro node nid; exact ⟨rfl, rfl⟩
  | cons variant rest ih =>
    intro node nid
    exact ih _ (nid + 1)

mutual

/-- Compiling a statement into a target function never changes the target's
arity and only appends to its instruction list. -/
theorem compileStatement_extends (s : Statement) (node : CompiledFunction)
    (nid : Nat) :
    (compileStatement s node nid).1.args = node.args
    ∧ ∃ ex, (compileStatement s node nid).1.code = node.code ++ ex := by
  cases s with
  | varDecl name value =>
    obtain ⟨ha, ex, he⟩ := compileExpression_extends value node nid
    refine ⟨?_, ex ++ [.set name], ?_⟩
    · rw [compileStatement]
      exact ha
    · rw [compileStatement]
      show (compileExpression value node nid).1.code ++ [.set name]
        = node.code ++ (ex ++ [.set name])
      rw [he, List.append_assoc]
  | expr e => exact compileExpression_extends e node nid
  | typeDef td =>
    have h := compileTypeDef_extends td td.variants node nid
    refine ⟨?_, [], ?_⟩
    · rw [compileStatement]
      exact h.1
    · rw [compileStatement]
      show (compileTypeDef td td.variants node nid).1.code = node.code ++ []
      rw [h.2, List.append_nil]

/-- Compiling a statement list never changes the target's arity and only
appends to its instruction list. -/
theorem compileStatements_extends (l : List Statement)
    (node : CompiledFunction) (nid : Nat) :
    (compileStatements l node nid).1.args = node.args
    ∧ ∃ ex, (compileStatements l node nid).1.code = node.code ++ ex := by
  match l with
  | [] => exact ⟨by rw [compileStatements], [], by rw [compileStatements]; simp⟩
  | s :: rest =>
    obtain ⟨ha₁, ex₁, he₁⟩ := compileStatement_extends s node nid
    obtain ⟨ha₂, ex₂, he₂⟩ := compileStatements_extends rest
      (compileStatement s node nid).1 (compileStatement s node nid).2
    refine ⟨?_, ex₁ ++ ex₂, ?_⟩
    · rw [compileStatements]
      show (compileStatements rest (compileStatement s node nid).1
          (compileStatement s node nid).2).1.args = node.args
      rw [ha₂, ha₁]
    · rw [compileStatements]
      show (compileStatements rest (compileStatement s node nid).1
          (compileStatement s node nid).2).1.code = node.code ++ (ex₁ ++ ex₂)
      rw [he₂, he₁, List.append_assoc]

/-- Compiling an expression into a target function never changes the
target's arity and only appends to its instruction list. -/
theorem compileExpression_extends (e : Expression) (node : CompiledFunction)
    (nid : Nat) :
    (compileExpression e node nid).1.args = node.args
    ∧ ∃ ex, (compileExpression e node nid).1.code = node.code ++ ex := by
  cases e with
  | int value => exact ⟨by rw [compileExpression], [.int value],
      by rw [compileExpression]⟩
  | float value => exact ⟨by rw [compileExpression], [.float value],
      by rw [compileExpression]⟩
  | string value => exact ⟨by rw [compileExpression], [.string value],
      by rw [compileExpression]⟩
  | unaryOperator op e =>
    obtain ⟨ha, ex, he⟩ := compileExpression_extends e node nid
    refine ⟨?_, ex ++ [.call (unaryOpName op)], ?_⟩
    · rw [compileExpression]
      exact ha
    · rw [compileExpression]
      show (compileExpression e node nid).1.code ++ [.call (unaryOpName op)]
        = node.code ++ (ex ++ [.call (unaryOpName op)])
      rw [he, List.append_assoc]
  | funCall name args =>
    obtain ⟨ha, ex, he⟩ := compileExpressions_extends args node nid
    refine ⟨?_, ex ++ [.call name], ?_⟩
    · rw [compileExpression]
      exact ha
    · rw [compileExpression]
      show (compileExpressions args node nid).1.code ++ [.call name]
        = node.code ++ (ex ++ [.call name])
      rw [he, List.append_assoc]
  | operator op left right =>
    obtain ⟨ha₁, ex₁, he₁⟩ := compileExpression_extends left node nid
    obtain ⟨ha₂, ex₂, he₂⟩ := compileExpression_extends right
      (compileExpression left node nid).1 (compileExpression left node nid).2
    refine ⟨?_, ex₁ ++ (ex₂ ++ [.call (opName op)]), ?_⟩
    · rw [compileExpression]
      show (compileExpression right (compileExpression left node nid).1
          (compileExpression left node nid).2).1.args = node.args
      rw [ha₂, ha₁]
    · rw [compileExpression]
      show (compileExpression right (compileExpression left node nid).1
            (compileExpression left node nid).2).1.code
            ++ [.call (opName op)]
          = node.code ++ (ex₁ ++ (ex₂ ++ [.call (opName op)]))
      rw [he₂, he₁]
      simp [List.append_assoc]
  | list items =>
    obtain ⟨ha, ex, he⟩ := compileExpressions_extends items node nid
    refine ⟨?_, ex ++ [.list items.length], ?_⟩
    · rw [compileExpression]
      exact ha
    · rw [compileExpression]
      show (compileExpressions items node nid).1.code ++ [.list items.length]
        = node.code ++ (ex ++ [.list items.length])
      rw [he, List.append_assoc]
  | tuple values =>
    obtain ⟨ha, ex, he⟩ := compileExpressions_extends values node nid
    refine ⟨?_, ex ++ [.tuple values.length], ?_⟩
    · rw [compileExpression]
      exact ha
    · rw [compileExpression]
      show (compileExpressions values node nid).1.code
            ++ [.tuple values.length]
        = node.code ++ (ex ++ [.tuple values.length])
      rw [he, List.append_assoc]
  | lambda args code =>
    refine ⟨by rw [compileExpression], [.function (compileStatements code
        { args := args.length, code := args.reverse.map Inst.set
          , functions := [], instanceClasses := [] } nid).2],
      by rw [compileExpression]⟩
  | ret value =>
    obtain ⟨ha, ex, he⟩ := compileExpression_extends value node nid
    refine ⟨?_, ex ++ [.ret], ?_⟩
    · rw [compileExpression]
      exact ha
    · rw [compileExpression]
      show (compileExpression value node nid).1.code ++ [.ret]
        = node.code ++ (ex ++ [.ret])
      rw [he, List.append_assoc]

/-- Compiling an expression list never changes the target's arity and only
appends to its instruction list. -/
theorem compileExpressions_extends (l : List Expression)
    (node : CompiledFunction) (nid : Nat) :
    (compileExpressions l node nid).1.args = node.args
    ∧ ∃ ex, (compileExpressions l node nid).1.code = node.code ++ ex := by
  match l with
  | [] => exact ⟨by rw [compileExpressions], [],
      by rw [compileExpressions]; simp⟩
  | e :: rest =>
    obtain ⟨ha₁, ex₁, he₁⟩ := compileExpression_extends e node nid
    obtain ⟨ha₂, ex₂, he₂⟩ := compileExpressions_extends rest
      (compileExpression e node nid).1 (compileExpression e node nid).2
    refine ⟨?_, ex₁ ++ ex₂, ?_⟩
    · rw [compileExpressions]
      show (compileExpressions rest (compileExpression e node nid).1
          (compileExpression e node nid).2).1.args = node.args
      rw [ha₂, ha₁]
    · rw [compileExpressions]
      show (compileExpressions rest (compileExpression e node nid).1
          (compileExpression e node nid).2).1.code = node.code ++ (ex₁ ++ ex₂)
      rw [he₂, he₁, List.append_assoc]

end

/-- If two lists hold `a` and `b` at the same position, their zip holds
`(a, b)` there. -/
theorem get?_zip_eq {α β : Type} :
    ∀ (l₁ : List α) (l₂ : List β) (j : Nat) (a : α) (b : β),
      l₁.get? j = some a → l₂.get? j = some b →
      (l₁.zip l₂).get? j = some (a, b) := by
  intro l₁
  induction l₁ with
  | nil => intro l₂ j a b h₁ _; simp at h₁
  | cons x l₁ ih =>
    intro l₂ j a b h₁ h₂
    match l₂, j with
    | [], j => simp at h₂
    | y :: l₂, 0 =>
      simp only [List.get?_cons_zero] at h₁ h₂
      injection h₁ with h₁
      injection h₂ with h₂
      subst h₁; subst h₂
      rfl
    | y :: l₂, j + 1 =>
      simp only [List.get?_cons_succ] at h₁ h₂
      simpa [List.zip_cons_cons] using ih l₂ j a b h₁ h₂

/-- C1: for a user-defined lambda, the compiled prologue is the sequence of
`Set` instructions for its declared parameters in *reverse* declared order
(last-declared parameter bound first); running that prologue over the
argument vector gathered by popping in reverse push order (the callee's
initial stack `args.reverse`, where `args = vs.reverse` for evaluation-order
values `vs`) binds declared parameter `i` to the value of argument
`n - 1 - i`; so in `f a b` the first declared parameter receives the value
of `b` and the second that of `a` — concretely `f = { p, q | p }; f 1 2`
yields `2` and `f = { p, q | q }; f 1 2` yields `1`. -/
theorem c1_param_binding_reversal :
    (∀ (ps : List String) (stmts : List Statement) (node : CompiledFunction)
       (nid : Nat),
       ∃ id lam,
         (compileExpression (.lambda ps stmts) node nid).1.functions
           = insertKey node.functions id lam
         ∧ (compileExpression (.lambda ps stmts) node nid).1.code
           = node.code ++ [.function id]
         ∧ lam.args = ps.length
         ∧ lam.code.take ps.length = ps.reverse.map Inst.set)
    ∧ (∀ (rt : Runtime) (fuel : Nat) (env : Env) (ps : List String)
       (vs : List Value) (body : List Inst),
       env ≠ [] → ps.Nodup → ps.length = vs.length →
       runCode rt (fuel + ps.length) env (ps.reverse.map Inst.set ++ body)
           (vs.reverse).reverse
         = runCode rt fuel (envSetList env (ps.reverse.zip vs)) body []
       ∧ ∀ (i : Nat) (p : String) (v : Value), i < ps.length →
           ps.get? i = some p → vs.get? (ps.length - 1 - i) = some v →
           envGet (envSetList env (ps.reverse.zip vs)) p = some v)
    ∧ runProgram initialRuntime 100 (compileProgram firstParamProg)
        = .ok (.int 2)
    ∧ runProgram initialRuntime 100 (compileProgram secondParamProg)
        = .ok (.int 1) := by
  refine ⟨?_, ?_, rfl, rfl⟩
  · intro ps stmts node nid
    refine ⟨(compileStatements stmts
        { args := ps.length, code := ps.reverse.map Inst.set
          , functions := [], instanceClasses := [] } nid).2,
      (compileStatements stmts
        { args := ps.length, code := ps.reverse.map Inst.set
          , functions := [], instanceClasses := [] } nid).1, ?_, ?_, ?_, ?_⟩
    · rw [compileExpression]
    · rw [compileExpression]
    · exact (compileStatements_extends stmts _ nid).1
    · obtain ⟨-, ex, he⟩ := compileStatements_extends stmts
        { args := ps.length, code := ps.reverse.map Inst.set
          , functions := [], instanceClasses := [] } nid
      rw [he]
      show ((ps.reverse.map Inst.set) ++ ex).take ps.length
        = ps.reverse.map Inst.set
      have hlen : (ps.reverse.map Inst.set).length = ps.length := by simp
      rw [← hlen, List.take_left]
  · intro rt fuel env ps vs body hne hnd hlen
    have hnodup : ((ps.reverse.zip vs).map Prod.fst).Nodup := by
      rw [List.map_fst_zip ps.reverse vs (by simp [hlen])]
      exact List.nodup_reverse.mpr hnd
    constructor
    · have h := runCode_prologue rt ps.reverse vs fuel env body
        (by simp [hlen])
      rw [List.reverse_reverse]
      simpa using h
    · intro i p v hi hp hv
      apply envGet_envSetList_mem _ env _ _ hne hnodup
      have hrev : ps.reverse.get? (ps.length - 1 - i) = some p := by
        rw [List.get?_reverse (by omega)]
        have hidx : ps.length - 1 - (ps.length - 1 - i) = i := by omega
        rw [hidx]
        exact hp
      exact List.get?_mem (get?_zip_eq ps.reverse vs _ p v hrev hv)

/-- Witness for C1: the two-parameter prologue `[Set q, Set p]` over the
gathered arguments of `f 1 2` binds `p` (the first declared parameter) to
`2` (the last evaluated argument). -/
theorem c1_param_binding_reversal_witness :
    runCode initialRuntime 2 [frame0] [.set "q", .set "p"]
        [Value.int 1, Value.int 2]
      = runCode initialRuntime 0
          (envSetList [frame0] [("q", Value.int 1), ("p", Value.int 2)]) [] []
    ∧ envGet (envSetList [frame0] [("q", Value.int 1), ("p", Value.int 2)])
        "p" = some (Value.int 2) :=
  ⟨(c1_param_binding_reversal.2.1 initialRuntime 0 [frame0] ["p", "q"]
      [.int 1, .int 2] [] (by simp) (by simp) rfl).1
    , (c1_param_binding_reversal.2.1 initialRuntime 0 [frame0] ["p", "q"]
      [.int 1, .int 2] [] (by simp) (by simp) rfl).2 0 "p" (.int 2)
      (by decide) rfl rfl⟩

end DemoLang
